import Mathlib

/-!
Shallow embedding of `src/lib/event-dispatcher.js` (class `EventDispatcher`).

Modelling choices:
* Object identity (Electron `BrowserWindow` sinks, `EventEmitter` sources,
  handler callbacks) is modelled by `Nat` identifiers; JS `===` becomes `=`.
* The dispatcher's own fields `windows`, `connectors`, `running` are kept
  with their source names.  The surrounding world is made explicit:
  `emitters` maps an emitter id and an event name to its listener list
  (registration order), `closedListeners` counts the `closed`-listeners the
  dispatcher has installed on each window via `window.on('closed', ...)`,
  `warnings` is the `console.warn` log (formatted messages, `%s`
  substituted), and `sent` is the trace of `window.webContents.send` calls.
* A JS `handlers` object (`Object<String, Function>`) is a `List` of
  `(eventName, callbackId)` pairs in insertion order; `Object.keys`
  enumerates the names in that order, and keys are unique in a JS object.
* `connect`/`disconnect` `throw` before any mutation, so a thrown call is
  modelled as `Except.error msg` and the caller's state is the unchanged
  input world.  `start`/`stop`/`restart` always resolve their promise and
  their bookkeeping is synchronous, so they are total `World → World`
  functions.
* Node's `EventEmitter.prototype.on` appends to the listener list;
  `removeListener` scans the list backwards and splices out the last
  occurrence of the callback.
-/

/-- A JavaScript value passed as a broadcast argument (enough of the JS
value universe for the spec's examples; broadcast only forwards them). -/
inductive JSVal where
  | vnull : JSVal
  | vbool : Bool → JSVal
  | vstr : String → JSVal
  | vnum : Rat → JSVal
  deriving DecidableEq

/-- A connected source binding `{emitter, handlers}` as pushed by
`EventDispatcher.connect` (src/lib/event-dispatcher.js:83). -/
structure Connector where
  emitter : Nat
  handlers : List (String × Nat)
  deriving DecidableEq

/-- The dispatcher state (`windows`, `connectors`, `running`, constructor
name) together with the observable outside world. -/
structure World where
  ctorName : String
  windows : List Nat
  connectors : List Connector
  running : Bool
  emitters : Nat → String → List Nat
  closedListeners : Nat → Nat
  warnings : List String
  sent : List (Nat × String × List JSVal)

/-- The JS idiom `findIndex(p)` followed by `splice(index, 1)` when the
index is not `-1`: remove the first element satisfying `p`, keep the list
as is when there is none. -/
def spliceFirst {α : Type} (p : α → Bool) (l : List α) : List α :=
  match l.findIdx? p with
  | some i => l.eraseIdx i
  | none => l

/-- A freshly constructed `new EventDispatcher()` in a fresh world: no
windows, no connectors, not running, no listeners registered anywhere. -/
def initWorld : World :=
  { ctorName := "EventDispatcher"
    windows := []
    connectors := []
    running := false
    emitters := fun _ _ => []
    closedListeners := fun _ => 0
    warnings := []
    sent := [] }

/-- Node's `emitter.on(ev, cb)`: appends `cb` to the listener list of
event `ev` on emitter `em`. -/
def emitterOn (es : Nat → String → List Nat) (em : Nat) (ev : String) (cb : Nat) :
    Nat → String → List Nat :=
  fun e v => if e = em ∧ v = ev then es e v ++ [cb] else es e v

/-- Remove the LAST occurrence of `cb` from a listener list: Node's
`removeListener` scans the list from the end and splices the position it
finds, i.e. it erases the first occurrence of the reversed list. -/
def removeLastOcc (cb : Nat) (l : List Nat) : List Nat :=
  (l.reverse.erase cb).reverse

/-- Node's `emitter.removeListener(ev, cb)` on the emitters map. -/
def emitterRemoveListener (es : Nat → String → List Nat) (em : Nat) (ev : String) (cb : Nat) :
    Nat → String → List Nat :=
  fun e v => if e = em ∧ v = ev then removeLastOcc cb (es e v) else es e v

namespace EventDispatcher

/-- `attach(window)` (src/lib/event-dispatcher.js:37-41): pushes `window`
onto `this.windows` and installs a `closed`-listener
`window.on('closed', () => this.detach(window))` on the window. -/
def attach (w : World) (window : Nat) : World :=
  { w with
    windows := w.windows ++ [window]
    closedListeners := fun s => if s = window then w.closedListeners s + 1 else w.closedListeners s }

/-- `detach(window)` (src/lib/event-dispatcher.js:53-58):
`indexOf` + `splice(index, 1)`, a no-op when `indexOf` returns `-1`.
The `closed`-listener installed by `attach` is not touched. -/
def detach (w : World) (window : Nat) : World :=
  { w with windows := spliceFirst (fun x => x == window) w.windows }

/-- One `window.webContents.send(event, ...args)` call, recorded on the
`sent` trace. -/
def sendTo (w : World) (window : Nat) (ev : String) (args : List JSVal) : World :=
  { w with sent := w.sent ++ [(window, ev, args)] }

/-- `broadcast(event, ...args)` (src/lib/event-dispatcher.js:66-70):
`for (const window of this.windows) window.webContents.send(event, ...args)`. -/
def broadcast (w : World) (ev : String) (args : List JSVal) : World :=
  w.windows.foldl (fun acc window => sendTo acc window ev args) w

/-- Message of the `Error` thrown by `connect` on a running dispatcher
(src/lib/event-dispatcher.js:80). -/
def connectErrorMsg : String := "connecting `emitter` handlers to a running dispatcher"

/-- Message of the `Error` thrown by `disconnect` on a running dispatcher
(src/lib/event-dispatcher.js:93). -/
def disconnectErrorMsg : String := "disconnecting `emitter` handlers from a running dispatcher"

/-- `connect(emitter, handlers)` (src/lib/event-dispatcher.js:78-84):
throws when running (before any mutation), otherwise pushes the binding. -/
def connect (w : World) (emitter : Nat) (handlers : List (String × Nat)) :
    Except String World :=
  if w.running then Except.error connectErrorMsg
  else Except.ok { w with connectors := w.connectors ++ [⟨emitter, handlers⟩] }

/-- `disconnect(emitter)` (src/lib/event-dispatcher.js:91-102): throws when
running; otherwise `findIndex` by emitter identity + `splice(index, 1)`,
a no-op when no binding matches. -/
def disconnect (w : World) (emitter : Nat) : Except String World :=
  if w.running then Except.error disconnectErrorMsg
  else Except.ok { w with connectors := spliceFirst (fun c => c.emitter == emitter) w.connectors }

/-- The formatted double-start warning
`console.warn('the `%s` dispatcher is already running', this.constructor.name)`
(src/lib/event-dispatcher.js:112). -/
def alreadyRunningWarning (name : String) : String :=
  "the `" ++ name ++ "` dispatcher is already running"

/-- The formatted double-stop warning
`console.warn('unable to `#stop` the `%s`, the dispatcher is not running', ...)`
(src/lib/event-dispatcher.js:136-138). -/
def notRunningWarning (name : String) : String :=
  "unable to `#stop` the `" ++ name ++ "`, the dispatcher is not running"

/-- The inner loop of `start` for one connector:
`for (const event of Object.keys(handlers)) emitter.on(event, handlers[event])`. -/
def registerHandlers (es : Nat → String → List Nat) (c : Connector) :
    Nat → String → List Nat :=
  c.handlers.foldl (fun acc p => emitterOn acc c.emitter p.1 p.2) es

/-- `start()` (src/lib/event-dispatcher.js:110-126): warn-and-resolve when
already running; otherwise register every handler of every connector, in
order, and set `running = true`.  The promise always resolves, so the
result is the world in which it resolved. -/
def start (w : World) : World :=
  if w.running then
    { w with warnings := w.warnings ++ [alreadyRunningWarning w.ctorName] }
  else
    { w with
      emitters := w.connectors.foldl registerHandlers w.emitters
      running := true }

/-- The inner loop of `stop` for one connector:
`for (const event of Object.keys(handlers)) emitter.removeListener(event, handlers[event])`. -/
def removeHandlers (es : Nat → String → List Nat) (c : Connector) :
    Nat → String → List Nat :=
  c.handlers.foldl (fun acc p => emitterRemoveListener acc c.emitter p.1 p.2) es

/-- `stop()` (src/lib/event-dispatcher.js:134-153): warn-and-resolve when
not running; otherwise deregister every handler of every connector, in the
same order `start` used, and set `running = false`. -/
def stop (w : World) : World :=
  if w.running then
    { w with
      emitters := w.connectors.foldl removeHandlers w.emitters
      running := false }
  else
    { w with warnings := w.warnings ++ [notRunningWarning w.ctorName] }

/-- `restart()` (src/lib/event-dispatcher.js:160-163):
`this.stop().then(() => this.start())`. -/
def restart (w : World) : World := start (stop w)

/-- `isRunning()` (src/lib/event-dispatcher.js:170-172). -/
def isRunning (w : World) : Bool := w.running

/-- A window fires its one-time `closed` event: every `closed`-listener the
dispatcher has installed on it runs `() => this.detach(window)`.  The
listeners were installed with `on` (not `once`), so firing does not remove
them from the window. -/
def closeWindow (w : World) (window : Nat) : World :=
  (fun acc => detach acc window)^[w.closedListeners window] w

/-- One public dispatcher operation, for reachable-state arguments. -/
inductive Op where
  | attach : Nat → Op
  | detach : Nat → Op
  | broadcast : String → List JSVal → Op
  | connect : Nat → List (String × Nat) → Op
  | disconnect : Nat → Op
  | start : Op
  | stop : Op
  | restart : Op

/-- Execute one operation.  A thrown `connect`/`disconnect` leaves the
caller's dispatcher unchanged (the source throws before mutating). -/
def step (w : World) : Op → World
  | Op.attach s => attach w s
  | Op.detach s => detach w s
  | Op.broadcast ev args => broadcast w ev args
  | Op.connect em hs =>
      match connect w em hs with
      | Except.ok w2 => w2
      | Except.error _ => w
  | Op.disconnect em =>
      match disconnect w em with
      | Except.ok w2 => w2
      | Except.error _ => w
  | Op.start => start w
  | Op.stop => stop w
  | Op.restart => restart w

/-- Run a sequence of operations from a freshly constructed dispatcher. -/
def run (ops : List Op) : World := ops.foldl step initWorld

end EventDispatcher

/-- The callbacks `handlers` maps to event `v`, in insertion order
(`Object.keys` order). -/
def handlersFor (hs : List (String × Nat)) (v : String) : List Nat :=
  hs.filterMap (fun p => if v = p.1 then some p.2 else none)

/-- All callbacks that `start` registers on emitter `e` for event `v`,
in connection order. -/
def registrations : List Connector → Nat → String → List Nat
  | [], _, _ => []
  | c :: cs, e, v =>
      (if e = c.emitter then handlersFor c.handlers v else []) ++ registrations cs e v

/-! ### Basic list lemmas about the JS idioms -/

theorem spliceFirst_eq_eraseP {α : Type} (p : α → Bool) (l : List α) :
    spliceFirst p l = l.eraseP p := by
  induction l with
  | nil => rfl
  | cons a l ih =>
    by_cases h : p a
    · simp [spliceFirst, List.findIdx?_cons, h]
    · simp only [spliceFirst, List.findIdx?_cons, h, if_false, Nat.zero_add,
        List.findIdx?_start_succ, List.eraseP_cons_of_neg h] at ih ⊢
      cases hf : l.findIdx? p with
      | none => simpa [hf] using congrArg (List.cons a) (by simpa [spliceFirst, hf] using ih)
      | some i =>
          simpa [hf] using congrArg (List.cons a) (by simpa [spliceFirst, hf] using ih)

theorem spliceFirst_beq_eq_erase (s : Nat) (l : List Nat) :
    spliceFirst (fun x => x == s) l = l.erase s := by
  rw [spliceFirst_eq_eraseP, List.erase_eq_eraseP']

theorem removeLastOcc_append_of_mem {x : Nat} {l2 : List Nat} (l1 : List Nat)
    (h : x ∈ l2) : removeLastOcc x (l1 ++ l2) = l1 ++ removeLastOcc x l2 := by
  unfold removeLastOcc
  rw [List.reverse_append, List.erase_append_left _ (by simpa using h),
    List.reverse_append, List.reverse_reverse]

theorem removeLastOcc_perm_erase (x : Nat) (l : List Nat) :
    (removeLastOcc x l).Perm (l.erase x) := by
  unfold removeLastOcc
  exact ((l.reverse.erase x).reverse_perm).trans ((l.reverse_perm).erase x)

/-- Removing (last occurrences of) the elements of `xs`, in any order and
one occurrence each, from `prior ++ l` where `l` is a permutation of `xs`,
restores `prior` exactly. -/
theorem foldl_removeLastOcc_restore :
    ∀ (xs l prior : List Nat), l.Perm xs →
      xs.foldl (fun acc x => removeLastOcc x acc) (prior ++ l) = prior := by
  intro xs
  induction xs with
  | nil => intro l prior h; simp [List.perm_nil.mp h]
  | cons x rest ih =>
    intro l prior h
    have hx : x ∈ l := h.mem_iff.mpr (List.mem_cons_self x rest)
    have h1 : (removeLastOcc x l).Perm rest := by
      have := (removeLastOcc_perm_erase x l).trans (h.erase x)
      simpa [List.erase_cons_head] using this
    simp only [List.foldl_cons, removeLastOcc_append_of_mem prior hx]
    exact ih (removeLastOcc x l) prior h1

/-! ### Closed forms of the registration/deregistration loops -/

namespace EventDispatcher

theorem foldl_emitterOn (hs : List (String × Nat)) (em : Nat) :
    ∀ es : Nat → String → List Nat,
      hs.foldl (fun acc p => emitterOn acc em p.1 p.2) es =
        fun e v => es e v ++ (if e = em then handlersFor hs v else []) := by
  induction hs with
  | nil => intro es; funext e v; simp [handlersFor]
  | cons p rest ih =>
    intro es
    rw [List.foldl_cons, ih]
    funext e v
    by_cases he : e = em
    · by_cases hv : v = p.1
      · simp [emitterOn, he, hv, handlersFor, List.filterMap_cons, List.append_assoc]
      · simp [emitterOn, he, hv, handlersFor, List.filterMap_cons]
    · simp [emitterOn, he, handlersFor]

theorem foldl_registerHandlers (cs : List Connector) :
    ∀ es : Nat → String → List Nat,
      cs.foldl registerHandlers es = fun e v => es e v ++ registrations cs e v := by
  induction cs with
  | nil => intro es; funext e v; simp [registrations]
  | cons c rest ih =>
    intro es
    rw [List.foldl_cons, ih]
    funext e v
    simp only [registerHandlers, foldl_emitterOn, registrations]
    by_cases he : e = c.emitter <;> simp [he, List.append_assoc]

theorem foldl_emitterRemoveListener (hs : List (String × Nat)) (em : Nat) :
    ∀ es : Nat → String → List Nat,
      hs.foldl (fun acc p => emitterRemoveListener acc em p.1 p.2) es =
        fun e v =>
          if e = em
          then (handlersFor hs v).foldl (fun acc cb => removeLastOcc cb acc) (es e v)
          else es e v := by
  induction hs with
  | nil => intro es; funext e v; by_cases he : e = em <;> simp [handlersFor, he]
  | cons p rest ih =>
    intro es
    rw [List.foldl_cons, ih]
    funext e v
    by_cases he : e = em
    · by_cases hv : v = p.1
      · simp [emitterRemoveListener, he, hv, handlersFor, List.filterMap_cons]
      · simp [emitterRemoveListener, he, hv, handlersFor, List.filterMap_cons]
    · simp [emitterRemoveListener, he]

theorem foldl_removeHandlers (cs : List Connector) :
    ∀ es : Nat → String → List Nat,
      cs.foldl removeHandlers es =
        fun e v =>
          (registrations cs e v).foldl (fun acc cb => removeLastOcc cb acc) (es e v) := by
  induction cs with
  | nil => intro es; funext e v; simp [registrations]
  | cons c rest ih =>
    intro es
    rw [List.foldl_cons, ih]
    funext e v
    simp only [removeHandlers, foldl_emitterRemoveListener, registrations, List.foldl_append]
    by_cases he : e = c.emitter <;> simp [he, List.foldl_append]

/-! ### One-step specifications of the operations -/

theorem start_spec (w : World) :
    start w =
      if w.running then
        { w with warnings := w.warnings ++ [alreadyRunningWarning w.ctorName] }
      else
        { w with
          emitters := fun e v => w.emitters e v ++ registrations w.connectors e v
          running := true } := by
  unfold start
  by_cases h : w.running <;> simp [h, foldl_registerHandlers]

theorem stop_spec (w : World) :
    stop w =
      if w.running then
        { w with
          emitters := fun e v =>
            (registrations w.connectors e v).foldl
              (fun acc cb => removeLastOcc cb acc) (w.emitters e v)
          running := false }
      else
        { w with warnings := w.warnings ++ [notRunningWarning w.ctorName] } := by
  unfold stop
  by_cases h : w.running <;> simp [h, foldl_removeHandlers]

theorem foldl_sendTo (ev : String) (args : List JSVal) (ws : List Nat) :
    ∀ acc : World,
      ws.foldl (fun a s => sendTo a s ev args) acc =
        { acc with sent := acc.sent ++ ws.map (fun s => (s, ev, args)) } := by
  induction ws with
  | nil => intro acc; simp
  | cons s rest ih =>
    intro acc
    rw [List.foldl_cons, ih]
    simp [sendTo, List.append_assoc]

theorem broadcast_spec (w : World) (ev : String) (args : List JSVal) :
    broadcast w ev args =
      { w with sent := w.sent ++ w.windows.map (fun s => (s, ev, args)) } := by
  unfold broadcast
  rw [foldl_sendTo]

/-! ### The reachable-state invariant -/

/-- Strengthened invariant: when running, every emitter's listener list for
every event is exactly what the registration loop of `start` put there;
when stopped, every listener list is empty. -/
def StrongInv (w : World) : Prop :=
  ∀ e v, w.emitters e v = if w.running then registrations w.connectors e v else []

theorem strongInv_init : StrongInv initWorld := by
  intro e v
  simp [initWorld]

theorem connect_spec_running {w : World} {em : Nat} {hs : List (String × Nat)}
    (hr : w.running = true) : connect w em hs = Except.error connectErrorMsg := by
  unfold connect
  rw [if_pos hr]

theorem connect_spec_not_running {w : World} {em : Nat} {hs : List (String × Nat)}
    (hr : w.running = false) :
    connect w em hs = Except.ok { w with connectors := w.connectors ++ [⟨em, hs⟩] } := by
  unfold connect
  rw [if_neg (by simp [hr])]

theorem disconnect_spec_running {w : World} {em : Nat}
    (hr : w.running = true) : disconnect w em = Except.error disconnectErrorMsg := by
  unfold disconnect
  rw [if_pos hr]

theorem disconnect_spec_not_running {w : World} {em : Nat}
    (hr : w.running = false) :
    disconnect w em =
      Except.ok { w with connectors := w.connectors.eraseP (fun c => c.emitter == em) } := by
  unfold disconnect
  rw [if_neg (by simp [hr]), spliceFirst_eq_eraseP]

theorem strongInv_start {w : World} (h : StrongInv w) : StrongInv (start w) := by
  cases hr : w.running
  · intro e v
    have hw := h e v
    simp [hr] at hw
    simp [start_spec, hr, hw]
  · intro e v
    have hw := h e v
    simp [hr] at hw
    simp [start_spec, hr, hw]

theorem strongInv_stop {w : World} (h : StrongInv w) : StrongInv (stop w) := by
  cases hr : w.running
  · intro e v
    have hw := h e v
    simp [hr] at hw
    simp [stop_spec, hr, hw]
  · intro e v
    have hw := h e v
    simp [hr] at hw
    simp only [stop_spec, hr, if_pos]
    show (registrations w.connectors e v).foldl _ (w.emitters e v) = _
    rw [hw]
    simpa using
      foldl_removeLastOcc_restore (registrations w.connectors e v)
        (registrations w.connectors e v) [] (List.Perm.refl _)

theorem strongInv_step {w : World} (h : StrongInv w) (op : Op) : StrongInv (step w op) := by
  cases op with
  | attach s => intro e v; exact h e v
  | detach s => intro e v; exact h e v
  | broadcast ev args =>
      show StrongInv (broadcast w ev args)
      rw [broadcast_spec]
      intro e v
      exact h e v
  | connect em hs =>
      show StrongInv (match connect w em hs with
        | Except.ok w2 => w2
        | Except.error _ => w)
      cases hr : w.running
      · rw [connect_spec_not_running hr]
        intro e v
        have hw := h e v
        simp [hr] at hw
        simp [hr, hw]
      · rw [connect_spec_running hr]
        exact h
  | disconnect em =>
      show StrongInv (match disconnect w em with
        | Except.ok w2 => w2
        | Except.error _ => w)
      cases hr : w.running
      · rw [disconnect_spec_not_running hr]
        intro e v
        have hw := h e v
        simp [hr] at hw
        simp [hr, hw]
      · rw [disconnect_spec_running hr]
        exact h
  | start => exact strongInv_start h
  | stop => exact strongInv_stop h
  | restart => exact strongInv_start (strongInv_stop h)

theorem run_strongInv (ops : List Op) : StrongInv (run ops) := by
  suffices h : ∀ (l : List Op) (w : World), StrongInv w → StrongInv (l.foldl step w) from
    h ops initWorld strongInv_init
  intro l
  induction l with
  | nil => intro w hw; exact hw
  | cons op rest ih =>
      intro w hw
      exact ih (step w op) (strongInv_step hw op)

theorem mem_registrations {cs : List Connector} {c : Connector} {p : String × Nat}
    (hc : c ∈ cs) (hp : p ∈ c.handlers) : p.2 ∈ registrations cs c.emitter p.1 := by
  induction cs with
  | nil => cases hc
  | cons d rest ih =>
      rcases List.mem_cons.mp hc with hd | hc2
      · subst hd
        apply List.mem_append_left
        rw [if_pos rfl]
        exact List.mem_filterMap.mpr ⟨p, hp, by simp⟩
      · exact List.mem_append_right _ (ih hc2)

theorem stop_not_running (w : World) : (stop w).running = false := by
  rw [stop_spec]
  cases hr : w.running <;> simp [hr]

theorem detach_of_not_mem {w : World} {s : Nat} (h : s ∉ w.windows) : detach w s = w := by
  unfold detach
  rw [spliceFirst_beq_eq_erase, List.erase_of_not_mem h]

/-- `stop` after `start` on a non-running dispatcher is the identity on the
whole world: same dispatcher fields, same emitter listener lists, no
warnings, nothing sent. -/
theorem stop_start_of_not_running {w : World} (h : w.running = false) :
    stop (start w) = w := by
  rw [start_spec, if_neg (by simp [h]), stop_spec, if_pos rfl]
  cases w with
  | mk nm ws cs run es cl warn snt =>
      simp only at h
      subst h
      simp only [World.mk.injEq, and_true, true_and]
      funext e v
      exact foldl_removeLastOcc_restore _ _ (es e v) (List.Perm.refl _)

/-! ### Claims -/

/-- C1: Reachable-state invariant — after any sequence of dispatcher
operations (attach, detach, broadcast, connect, disconnect, start, stop,
restart) from a freshly constructed dispatcher in a fresh world, every
handler callback of every connected source binding is registered with its
underlying emitter (for its event name) if and only if `running` is true. -/
theorem c1_registered_iff_running (ops : List Op) :
    ∀ c ∈ (run ops).connectors, ∀ p ∈ c.handlers,
      (p.2 ∈ (run ops).emitters c.emitter p.1 ↔ (run ops).running = true) := by
  intro c hc p hp
  have h := run_strongInv ops c.emitter p.1
  cases hr : (run ops).running
  · simp [hr] at h
    simp [h, hr]
  · simp [hr] at h
    rw [h]
    exact iff_of_true (mem_registrations hc hp) rfl

/-- A concrete operation sequence: connect one emitter with one handler,
then start. -/
def c1ops : List Op := [Op.connect 0 [("data", 7)], Op.start]

/-- Witness for C1 at the concrete sequence `c1ops`. -/
theorem c1_registered_iff_running_witness :
    (⟨0, [("data", 7)]⟩ : Connector) ∈ (run c1ops).connectors ∧
    ("data", 7) ∈ (⟨0, [("data", 7)]⟩ : Connector).handlers ∧
    (7 ∈ (run c1ops).emitters 0 "data" ↔ (run c1ops).running = true) :=
  ⟨by decide, by decide,
    c1_registered_iff_running c1ops ⟨0, [("data", 7)]⟩ (by decide) ("data", 7) (by decide)⟩

/-- C2: `start()` on a non-running dispatcher registers, binding by binding
in connection order and entry by entry in handler-map order, every
`(eventName, callback)` on that binding's emitter, and sets `running` to
true (always resolving); on a running dispatcher it only appends the
already-running warning — in particular nothing is registered a second
time. -/
theorem c2_start_registers (w : World) :
    (w.running = false →
      start w =
        { w with
          emitters := fun e v => w.emitters e v ++ registrations w.connectors e v
          running := true }) ∧
    (w.running = true →
      start w = { w with warnings := w.warnings ++ [alreadyRunningWarning w.ctorName] }) := by
  constructor
  · intro h
    rw [start_spec, if_neg (by simp [h])]
  · intro h
    rw [start_spec, if_pos h]

/-- Witness for C2: both branches at concrete dispatchers. -/
theorem c2_start_registers_witness :
    start initWorld =
      { initWorld with
        emitters := fun e v => initWorld.emitters e v ++ registrations initWorld.connectors e v
        running := true } ∧
    start (start initWorld) =
      { start initWorld with
        warnings :=
          (start initWorld).warnings ++ [alreadyRunningWarning (start initWorld).ctorName] } :=
  ⟨(c2_start_registers initWorld).1 rfl, (c2_start_registers (start initWorld)).2 rfl⟩

/-- C3: `stop()` always leaves `running` false; when running it removes
exactly the callbacks `start` registered (same callback, same event name,
same emitter, in the same traversal order) and sets `running := false`;
when not running it only appends the warning, and moreover
`stop (start w) = w` for every world `w` that is not running — each
connected emitter's listener registrations (indeed the entire world) are
restored to what they were before `start`. -/
theorem c3_stop_reverses_start (w : World) :
    ((stop w).running = false) ∧
    (w.running = true →
      stop w =
        { w with
          emitters := fun e v =>
            (registrations w.connectors e v).foldl
              (fun acc cb => removeLastOcc cb acc) (w.emitters e v)
          running := false }) ∧
    (w.running = false →
      stop w = { w with warnings := w.warnings ++ [notRunningWarning w.ctorName] } ∧
      stop (start w) = w) := by
  refine ⟨stop_not_running w, fun h => ?_, fun h => ⟨?_, stop_start_of_not_running h⟩⟩
  · rw [stop_spec, if_pos h]
  · rw [stop_spec, if_neg (by simp [h])]

/-- Witness for C3: the running branch at `start initWorld` and the
round-trip and warning branch at `initWorld`. -/
theorem c3_stop_reverses_start_witness :
    stop (start initWorld) = initWorld ∧
    stop (start initWorld) =
      { start initWorld with
        emitters := fun e v =>
          (registrations (start initWorld).connectors e v).foldl
            (fun acc cb => removeLastOcc cb acc) ((start initWorld).emitters e v)
        running := false } ∧
    stop initWorld =
      { initWorld with
        warnings := initWorld.warnings ++ [notRunningWarning initWorld.ctorName] } :=
  ⟨((c3_stop_reverses_start initWorld).2.2 rfl).2,
   (c3_stop_reverses_start (start initWorld)).2.1 rfl,
   ((c3_stop_reverses_start initWorld).2.2 rfl).1⟩

/-- C4: `broadcast(eventName, ...args)` invokes the send capability of
every currently attached sink exactly once per occurrence in the `windows`
sequence, in attachment order, passing the event name and argument list
unchanged; with zero attached sinks it is a no-op. -/
theorem c4_broadcast_fanout (w : World) (ev : String) (args : List JSVal) :
    broadcast w ev args =
      { w with sent := w.sent ++ w.windows.map (fun s => (s, ev, args)) } ∧
    (w.windows = [] → broadcast w ev args = w) := by
  refine ⟨broadcast_spec w ev args, fun h => ?_⟩
  cases w with
  | mk nm ws cs run es cl warn snt =>
      simp only at h
      subst h
      rw [broadcast_spec]
      simp

/-- Witness for C4: broadcasting the spec's example argument list to a
dispatcher with no attached sinks is a no-op. -/
theorem c4_broadcast_fanout_witness :
    broadcast initWorld "e"
        [JSVal.vnum 1.23, JSVal.vstr "ABC", JSVal.vnull, JSVal.vbool false] =
      initWorld :=
  (c4_broadcast_fanout initWorld "e"
    [JSVal.vnum 1.23, JSVal.vstr "ABC", JSVal.vnull, JSVal.vbool false]).2 rfl

/-- C5 counterexample: on a running dispatcher `connect` does raise, but
the raised message is the source's `connecting `emitter` handlers to a
running dispatcher` (backticks around `emitter`), not the claim's
"connecting emitter handlers to a running dispatcher". -/
theorem c5_counterexample :
    connect (start initWorld) 0 [("e", 1)] = Except.error connectErrorMsg ∧
    connectErrorMsg ≠ "connecting emitter handlers to a running dispatcher" := by
  exact ⟨connect_spec_running rfl, by decide⟩

/-- C5 (amended): on a running dispatcher, `connect` and `disconnect` raise
synchronously (an `Except.error`, never a returned world — the input state
is untouched since the source throws before mutating) with messages
`connecting `emitter` handlers to a running dispatcher` and
`disconnecting `emitter` handlers from a running dispatcher`; when not
running, `connect` appends the binding (duplicates allowed) and
`disconnect` removes the first binding matching by emitter identity, a
silent no-op when none matches. -/
theorem c5_connect_disconnect_guard (w : World) (em : Nat) (hs : List (String × Nat)) :
    (w.running = true →
      connect w em hs =
        Except.error "connecting `emitter` handlers to a running dispatcher" ∧
      disconnect w em =
        Except.error "disconnecting `emitter` handlers from a running dispatcher") ∧
    (w.running = false →
      connect w em hs = Except.ok { w with connectors := w.connectors ++ [⟨em, hs⟩] } ∧
      disconnect w em =
        Except.ok { w with connectors := w.connectors.eraseP (fun c => c.emitter == em) } ∧
      ((∀ c ∈ w.connectors, c.emitter ≠ em) → disconnect w em = Except.ok w)) := by
  constructor
  · intro h
    exact ⟨connect_spec_running h, disconnect_spec_running h⟩
  · intro h
    refine ⟨connect_spec_not_running h, disconnect_spec_not_running h, fun hnone => ?_⟩
    have he : w.connectors.eraseP (fun c => c.emitter == em) = w.connectors :=
      List.eraseP_of_forall_not (fun a ha => by simpa using hnone a ha)
    rw [disconnect_spec_not_running h, he]

/-- Witness for C5 (amended): the raise at a running dispatcher and the
silent no-op disconnect at the fresh one. -/
theorem c5_connect_disconnect_guard_witness :
    connect (start initWorld) 0 [] =
      Except.error "connecting `emitter` handlers to a running dispatcher" ∧
    disconnect initWorld 0 = Except.ok initWorld :=
  ⟨((c5_connect_disconnect_guard (start initWorld) 0 []).1 rfl).1,
   ((c5_connect_disconnect_guard initWorld 0 []).2 rfl).2.2 (by decide)⟩

/-- C6 counterexample: the claim predicts that attaching then detaching a
sink leaves no dispatcher-installed listener on it, but the source attaches
the `closed` listener with `on` and `detach` never removes it: after
`attach` then `detach` one listener remains. -/
theorem c6_counterexample :
    (detach (attach initWorld 0) 0).closedListeners 0 ≠ 0 := by decide

/-- C6 (amended): `attach(sink)` installs (via `on`, so persistent, not
one-shot) a listener on the sink's `closed` notification that calls
`detach(sink)`; the subscription is NOT cancelled at detach time, so
attaching then detaching leaves exactly one additional dispatcher-installed
listener on the sink; when the sink's `closed` notification fires, each
installed listener calls `detach(sink)` once — a harmless no-op whenever
the sink is not attached — and a sink attached exactly once is
auto-detached by its `closed` notification. -/
theorem c6_closed_listener_bookkeeping (w : World) (s : Nat) :
    ((detach (attach w s) s).closedListeners s = w.closedListeners s + 1) ∧
    (s ∉ w.windows → closeWindow w s = w) ∧
    (w.closedListeners s = 0 → s ∉ w.windows →
      (closeWindow (attach w s) s).windows = w.windows) := by
  refine ⟨by simp [attach, detach], fun h => ?_, fun h0 hmem => ?_⟩
  · exact Function.iterate_fixed (detach_of_not_mem h) _
  · show ((fun acc => detach acc s)^[(attach w s).closedListeners s] (attach w s)).windows
        = w.windows
    have hc : (attach w s).closedListeners s = 1 := by simp [attach, h0]
    rw [hc, Function.iterate_one]
    unfold detach
    rw [spliceFirst_beq_eq_erase]
    show ((attach w s).windows).erase s = w.windows
    simp only [attach]
    rw [List.erase_append_right _ hmem, List.erase_cons_head]
    simp

/-- Witness for C6 (amended) at the fresh world and sink 5. -/
theorem c6_closed_listener_bookkeeping_witness :
    (detach (attach initWorld 5) 5).closedListeners 5 = initWorld.closedListeners 5 + 1 ∧
    closeWindow initWorld 5 = initWorld ∧
    (closeWindow (attach initWorld 5) 5).windows = initWorld.windows :=
  ⟨(c6_closed_listener_bookkeeping initWorld 5).1,
   (c6_closed_listener_bookkeeping initWorld 5).2.1 (by decide),
   (c6_closed_listener_bookkeeping initWorld 5).2.2 (by decide) (by decide)⟩

/-- C7: `restart()` is `stop()` sequentially followed by `start()` (in that
order — both halves always resolve in the core, hence nothing to
propagate), it always leaves the dispatcher running, and when invoked while
stopped the stop-half only appends its warning and is still followed by a
real start. -/
theorem c7_restart_stop_then_start (w : World) :
    restart w = start (stop w) ∧
    (restart w).running = true ∧
    (w.running = false →
      restart w =
        start { w with warnings := w.warnings ++ [notRunningWarning w.ctorName] }) := by
  refine ⟨rfl, ?_, fun h => ?_⟩
  · show (start (stop w)).running = true
    rw [start_spec, if_neg (by simp [stop_not_running w])]
  · show start (stop w) = _
    rw [stop_spec, if_neg (by simp [h])]

/-- Witness for C7 at the fresh (stopped) dispatcher. -/
theorem c7_restart_stop_then_start_witness :
    restart initWorld =
      start { initWorld with
              warnings := initWorld.warnings ++ [notRunningWarning initWorld.ctorName] } :=
  (c7_restart_stop_then_start initWorld).2.2 rfl

/-- C8: `attach(sink)` always appends to the end of the `windows` sequence
(duplicates allowed); `detach(sink)` removes exactly the first occurrence
by identity; detaching an absent sink is a silent no-op that never raises
and leaves the whole state unchanged. -/
theorem c8_attach_append_detach_first (w : World) (s : Nat) :
    (attach w s).windows = w.windows ++ [s] ∧
    (detach w s).windows = w.windows.erase s ∧
    (s ∉ w.windows → detach w s = w) := by
  refine ⟨rfl, ?_, fun h => detach_of_not_mem h⟩
  show spliceFirst (fun x => x == s) w.windows = w.windows.erase s
  exact spliceFirst_beq_eq_erase s w.windows

/-- Witness for C8: detaching a sink that was never attached. -/
theorem c8_attach_append_detach_first_witness :
    detach (attach initWorld 3) 4 = attach initWorld 3 :=
  (c8_attach_append_detach_first (attach initWorld 3) 4).2.2 (by decide)

/-- C9 counterexample: the double-stop warning the source logs is
`unable to `#stop` the `EventDispatcher`, the dispatcher is not running`
— with `#stop`, not the claim's "unable to stop the `EventDispatcher`,
the dispatcher is not running". -/
theorem c9_counterexample :
    (stop initWorld).warnings = [notRunningWarning "EventDispatcher"] ∧
    notRunningWarning "EventDispatcher" =
      "unable to `#stop` the `EventDispatcher`, the dispatcher is not running" ∧
    notRunningWarning "EventDispatcher" ≠
      "unable to stop the `EventDispatcher`, the dispatcher is not running" := by
  exact ⟨rfl, rfl, by decide⟩

/-- C9 (amended): the two lifecycle warnings, parameterized by the
dispatcher's type name, are exactly "the `<name>` dispatcher is already
running" (double-start) and "unable to `#stop` the `<name>`, the
dispatcher is not running" (double-stop). -/
theorem c9_warning_wording (w : World) :
    (w.running = true →
      (start w).warnings =
        w.warnings ++ ["the `" ++ w.ctorName ++ "` dispatcher is already running"]) ∧
    (w.running = false →
      (stop w).warnings =
        w.warnings ++
          ["unable to `#stop` the `" ++ w.ctorName ++ "`, the dispatcher is not running"]) := by
  constructor
  · intro h
    rw [start_spec, if_pos h]
    rfl
  · intro h
    rw [stop_spec, if_neg (by simp [h])]
    rfl

/-- Witness for C9 (amended): both warnings at concrete dispatchers. -/
theorem c9_warning_wording_witness :
    (start (start initWorld)).warnings =
      (start initWorld).warnings ++
        ["the `" ++ (start initWorld).ctorName ++ "` dispatcher is already running"] ∧
    (stop initWorld).warnings =
      initWorld.warnings ++
        ["unable to `#stop` the `" ++ initWorld.ctorName ++
          "`, the dispatcher is not running"] :=
  ⟨(c9_warning_wording (start initWorld)).1 rfl, (c9_warning_wording initWorld).2 rfl⟩

/-- C10: frame property — `broadcast` (whose sink send calls cannot reenter
the dispatcher in this core model) and `isRunning` leave the dispatcher's
`windows`, `connectors` and `running` untouched (`isRunning` is a pure
query of `running`), and `start`/`stop` never modify `windows` or
`connectors`. -/
theorem c10_frame (w : World) (ev : String) (args : List JSVal) :
    (broadcast w ev args).windows = w.windows ∧
    (broadcast w ev args).connectors = w.connectors ∧
    (broadcast w ev args).running = w.running ∧
    isRunning (broadcast w ev args) = isRunning w ∧
    isRunning w = w.running ∧
    (start w).windows = w.windows ∧
    (start w).connectors = w.connectors ∧
    (stop w).windows = w.windows ∧
    (stop w).connectors = w.connectors := by
  refine ⟨?_, ?_, ?_, ?_, rfl, ?_, ?_, ?_, ?_⟩
  · rw [broadcast_spec]
  · rw [broadcast_spec]
  · rw [broadcast_spec]
  · show (broadcast w ev args).running = w.running
    rw [broadcast_spec]
  · rw [start_spec]
    cases hr : w.running <;> simp
  · rw [start_spec]
    cases hr : w.running <;> simp
  · rw [stop_spec]
    cases hr : w.running <;> simp
  · rw [stop_spec]
    cases hr : w.running <;> simp

end EventDispatcher
